import Mathlib

/-!
Verification of the Flexlm license-text parser (lminfo.py).

This file gives a shallow embedding of the parser module: the section
splitter ("_preprocess"), the summary extractor ("_process_summary"), the
details extractor ("_process_details"), the two date normalizers
("convert_expiration_date", "flexlm_start_date_to_ts" with "adjust_year"),
and the acquisition wrapper ("get_license_info" / "_get_raw_license_text").

Modelling conventions:
- Python strings are Lean "String"; tokenization and stripping are modelled
  character by character, following the semantics of the Python operations
  used by the source: re.split on runs of whitespace, str.strip with a
  character set, str.split, int(), and the specific strptime format strings
  the source passes to the time module.
- Python exceptions are modelled with "Except PyErr": ValueError from int(),
  KeyError from a failed dict lookup, UnboundLocalError from reading a local
  that was never assigned, TypeError from the string arithmetic performed by
  adjust_year.
- time.strptime is modelled for exactly the two format strings the source
  uses ("%d-%b-%Y %H:%M" and "%m/%d/%Y %H:%M"), including the day/month/hour
  /minute token patterns of the underlying regular expressions, the
  exactly-four-digit %Y pattern, and the calendar validation that strptime
  performs when it computes the julian day via datetime.date (year must lie
  in 1..9999 and the day must exist in the month).  time.strftime output is
  modelled with zero-padded fields, together with the Python 2 gettmarg
  year handling (two-digit-year remapping below 100 and ValueError for
  years 100..1899).
- The ambient current local time used by flexlm_start_date_to_ts is passed
  in explicitly as a (year, month) pair.
-/

/-! ### Python string primitives -/

/-- The characters matched by a Python "\s" class on byte strings
(space, tab, newline, carriage return, vertical tab, form feed). -/
def pyIsSpace (c : Char) : Bool :=
  c = ' ' ∨ c = '\t' ∨ c = '\n' ∨ c = '\r' ∨ c = '\x0b' ∨ c = '\x0c'

mutual

/-- Worker for "re.split" on runs of whitespace: accumulating a token. -/
def splitWsGo : List Char → List Char → List String
  | [], acc => [String.mk acc.reverse]
  | c :: cs, acc =>
    if pyIsSpace c then String.mk acc.reverse :: splitWsSkip cs
    else splitWsGo cs (c :: acc)

/-- Worker for "re.split" on runs of whitespace: inside a whitespace run. -/
def splitWsSkip : List Char → List String
  | [] => [""]
  | c :: cs => if pyIsSpace c then splitWsSkip cs else splitWsGo cs [c]

end

/-- Python re.split(r"\s+", s): splits on runs of whitespace; a leading or
trailing run contributes an empty token, and an empty input gives [""]. -/
def pySplitWs (s : String) : List String := splitWsGo s.data []

/-- Python s.split("\n") worker over the character list. -/
def splitNlGo : List Char → List Char → List String
  | [], acc => [String.mk acc.reverse]
  | c :: rest, acc =>
    if c = '\n' then String.mk acc.reverse :: splitNlGo rest []
    else splitNlGo rest (c :: acc)

/-- Python s.split("\n"). -/
def pySplitNl (s : String) : List String := splitNlGo s.data []

/-- Python s.lstrip(chars): drop leading characters belonging to the set. -/
def pyLstrip (s : String) (cs : List Char) : String :=
  String.mk (s.data.dropWhile (fun c => cs.contains c))

/-- Python s.rstrip(chars): drop trailing characters belonging to the set. -/
def pyRstrip (s : String) (cs : List Char) : String :=
  String.mk ((s.data.reverse.dropWhile (fun c => cs.contains c)).reverse)

/-- Python s.strip(chars): drop the characters of the set from both ends. -/
def pyStrip (s : String) (cs : List Char) : String :=
  pyRstrip (pyLstrip s cs) cs

/-- Numeric value of a decimal digit character. -/
def charVal (c : Char) : Nat := c.toNat - 48

/-- Decimal digit character for a value below ten. -/
def digitChar (n : Nat) : Char :=
  match n with
  | 0 => '0' | 1 => '1' | 2 => '2' | 3 => '3' | 4 => '4'
  | 5 => '5' | 6 => '6' | 7 => '7' | 8 => '8' | 9 => '9'
  | _ => '*'

/-- Value of a digit string (most significant first). -/
def digitsVal (ds : List Char) : Nat := ds.foldl (fun acc c => 10 * acc + charVal c) 0

/-- Python int(s) on a base-10 string: optional surrounding whitespace,
an optional single sign, then one or more digits; anything else raises
ValueError (modelled as none). -/
def pyInt (s : String) : Option Int :=
  let core : List Char → Option Int := fun ds =>
    if ds.isEmpty then none
    else if ds.all Char.isDigit then some (Int.ofNat (digitsVal ds)) else none
  match (s.data.dropWhile pyIsSpace).reverse.dropWhile pyIsSpace |>.reverse with
  | '-' :: ds => (core ds).map (fun n => -n)
  | '+' :: ds => core ds
  | ds => core ds

/-! ### The time-module model

The source calls time.strptime with the formats "%d-%b-%Y %H:%M" and
"%m/%d/%Y %H:%M".  CPython compiles each numeric day/month/hour/minute
directive to an alternation of digit patterns that prefers the two-digit
form and falls back to a single digit, the year directive %Y to exactly
four digits, and the month directive %b to a case-insensitive alternation
of the locale month abbreviations; a literal space in the format matches a
run of whitespace, and the whole data string must be consumed.  After the regular
expression matches, strptime computes the julian day with datetime.date,
which validates the calendar date (year 1..9999, day within the month). -/

/-- One directive that matches two digits when their value satisfies ok2
(the two-digit alternatives of the pattern) and otherwise one digit whose
value satisfies ok1, preferring the two-digit match. -/
def parse2or1 (ok2 ok1 : Nat → Bool) : List Char → Option (Nat × List Char)
  | c1 :: c2 :: rest =>
    if c1.isDigit && c2.isDigit && ok2 (10 * charVal c1 + charVal c2) then
      some (10 * charVal c1 + charVal c2, rest)
    else if c1.isDigit && ok1 (charVal c1) then
      some (charVal c1, c2 :: rest)
    else none
  | [c1] => if c1.isDigit && ok1 (charVal c1) then some (charVal c1, []) else none
  | [] => none

/-- The "%d" directive: pattern 3[01] or [12] digit or 0[1-9] or [1-9]. -/
def parseDayTok : List Char → Option (Nat × List Char) :=
  parse2or1 (fun v => 1 ≤ v && v ≤ 31) (fun v => 1 ≤ v && v ≤ 9)

/-- The "%m" directive: pattern 1[0-2] or 0[1-9] or [1-9]. -/
def parseMonthNumTok : List Char → Option (Nat × List Char) :=
  parse2or1 (fun v => 1 ≤ v && v ≤ 12) (fun v => 1 ≤ v && v ≤ 9)

/-- The "%H" directive: pattern 2[0-3] or [0-1] digit or digit. -/
def parseHourTok : List Char → Option (Nat × List Char) :=
  parse2or1 (fun v => v ≤ 23) (fun v => v ≤ 9)

/-- The "%M" directive: pattern [0-5] digit or digit. -/
def parseMinuteTok : List Char → Option (Nat × List Char) :=
  parse2or1 (fun v => v ≤ 59) (fun v => v ≤ 9)

/-- The "%Y" directive: exactly four digits (the CPython _strptime pattern
for %Y is four digit atoms, with no shorter alternative). -/
def parseYearTok : List Char → Option (Nat × List Char)
  | c1 :: c2 :: c3 :: c4 :: rest =>
    if c1.isDigit && c2.isDigit && c3.isDigit && c4.isDigit then
      some (((charVal c1 * 10 + charVal c2) * 10 + charVal c3) * 10 + charVal c4,
            rest)
    else none
  | _ => none

/-- A literal space in a strptime format: one or more whitespace characters. -/
def parseWsRun : List Char → Option (List Char)
  | c :: cs => if pyIsSpace c then some (cs.dropWhile pyIsSpace) else none
  | [] => none

/-- Month number of a lowercased three-letter abbreviation (C locale). -/
def monthLookup (s : String) : Option Nat :=
  match s with
  | "jan" => some 1 | "feb" => some 2 | "mar" => some 3 | "apr" => some 4
  | "may" => some 5 | "jun" => some 6 | "jul" => some 7 | "aug" => some 8
  | "sep" => some 9 | "oct" => some 10 | "nov" => some 11 | "dec" => some 12
  | _ => none

/-- The "%b" directive: three characters matched case-insensitively against
the month abbreviations. -/
def parseMonthTok : List Char → Option (Nat × List Char)
  | a :: b :: c :: rest =>
    (monthLookup (String.mk [a.toLower, b.toLower, c.toLower])).map (fun m => (m, rest))
  | _ => none

/-- Month number of a whole string, as "%b" would match it alone. -/
def monthNum (s : String) : Option Nat :=
  match s.data with
  | [a, b, c] => monthLookup (String.mk [a.toLower, b.toLower, c.toLower])
  | _ => none

/-- Gregorian leap-year test (as in datetime.date). -/
def isLeap (y : Nat) : Bool := y % 4 = 0 && (y % 100 ≠ 0 || y % 400 = 0)

/-- Length of a month (as in datetime.date); zero for a month outside 1..12. -/
def daysInMonth (y m : Nat) : Nat :=
  match m with
  | 1 => 31
  | 2 => if isLeap y then 29 else 28
  | 3 => 31 | 4 => 30 | 5 => 31 | 6 => 30 | 7 => 31 | 8 => 31
  | 9 => 30 | 10 => 31 | 11 => 30 | 12 => 31
  | _ => 0

/-- The calendar validation strptime performs through datetime.date. -/
def dateValid (y m d : Nat) : Bool :=
  1 ≤ y && y ≤ 9999 && 1 ≤ d && d ≤ daysInMonth y m

/-- time.strptime(data, "%d-%b-%Y %H:%M") on a character list; returns
(year, month, day, hour, minute) when the whole input matches and the date
is a valid calendar date. -/
def strptimeDmy (cs : List Char) : Option (Nat × Nat × Nat × Nat × Nat) :=
  match parseDayTok cs with
  | none => none
  | some (d, cs1) =>
    match cs1 with
    | '-' :: cs2 =>
      match parseMonthTok cs2 with
      | none => none
      | some (m, cs3) =>
        match cs3 with
        | '-' :: cs4 =>
          match parseYearTok cs4 with
          | none => none
          | some (y, cs5) =>
            match parseWsRun cs5 with
            | none => none
            | some cs6 =>
              match parseHourTok cs6 with
              | none => none
              | some (h, cs7) =>
                match cs7 with
                | ':' :: cs8 =>
                  match parseMinuteTok cs8 with
                  | none => none
                  | some (mi, cs9) =>
                    if cs9 = [] && dateValid y m d then some (y, m, d, h, mi) else none
                | _ => none
        | _ => none
    | _ => none

/-- time.strptime(data, "%m/%d/%Y %H:%M") on a character list. -/
def strptimeMdy (cs : List Char) : Option (Nat × Nat × Nat × Nat × Nat) :=
  match parseMonthNumTok cs with
  | none => none
  | some (m, cs1) =>
    match cs1 with
    | '/' :: cs2 =>
      match parseDayTok cs2 with
      | none => none
      | some (d, cs3) =>
        match cs3 with
        | '/' :: cs4 =>
          match parseYearTok cs4 with
          | none => none
          | some (y, cs5) =>
            match parseWsRun cs5 with
            | none => none
            | some cs6 =>
              match parseHourTok cs6 with
              | none => none
              | some (h, cs7) =>
                match cs7 with
                | ':' :: cs8 =>
                  match parseMinuteTok cs8 with
                  | none => none
                  | some (mi, cs9) =>
                    if cs9 = [] && dateValid y m d then some (y, m, d, h, mi) else none
                | _ => none
        | _ => none
    | _ => none

/-- Two-digit zero-padded field of strftime. -/
def pad2 (n : Nat) : String := String.mk [digitChar (n / 10 % 10), digitChar (n % 10)]

/-- Four-digit zero-padded year field of strftime. -/
def pad4 (n : Nat) : String :=
  String.mk [digitChar (n / 1000 % 10), digitChar (n / 100 % 10),
             digitChar (n / 10 % 10), digitChar (n % 10)]

/-- The year handling of Python 2 time.strftime (gettmarg): a year of at
least 1900 is passed through; a year below 100 is accepted as a two-digit
year under the default accept2dyear setting (69..99 mapped into 1900..1999
and 0..68 into 2000..2068); any other year below 1900 raises
ValueError ("year out of range"), modelled as none. -/
def strftimeYear (y : Nat) : Option Nat :=
  if 1900 ≤ y then some y
  else if 69 ≤ y ∧ y ≤ 99 then some (y + 1900)
  else if y ≤ 68 then some (y + 2000)
  else none

/-- time.strftime("%Y-%m-%d %H:%M", tv) after the year was accepted. -/
def formatTs (y m d h mi : Nat) : String :=
  pad4 y ++ "-" ++ pad2 m ++ "-" ++ pad2 d ++ " " ++ pad2 h ++ ":" ++ pad2 mi

/-- Day of the week (0 = Sunday) by the Sakamoto congruence, matching the
weekday that strftime derives from the parsed struct_time. -/
def dayOfWeek (y m d : Nat) : Nat :=
  let t := [0, 3, 2, 5, 0, 3, 5, 1, 4, 6, 2, 4]
  let y2 := if m < 3 then y - 1 else y
  (y2 + y2 / 4 - y2 / 100 + y2 / 400 + t.getD (m - 1) 0 + d) % 7

/-- The "%a" abbreviation of the C locale. -/
def weekdayAbbrev (y m d : Nat) : String :=
  (["Sun", "Mon", "Tue", "Wed", "Thu", "Fri", "Sat"]).getD (dayOfWeek y m d) "???"

/-! ### The two date normalizers of the source -/

/-- convert_expiration_date: appends " 23:59" to the input, parses it with
"%d-%b-%Y %H:%M" and reformats with "%Y-%m-%d %H:%M"; if anything raises
(a strptime failure, or strftime rejecting the year through its gettmarg
range check), the two literal zero-year inputs become the never-expires
sentinel and every other input becomes the unknown sentinel. -/
def convert_expiration_date (exp_date : String) : String :=
  match strptimeDmy (exp_date ++ " 23:59").data with
  | some (y, m, d, h, mi) =>
    match strftimeYear y with
    | some y2 => formatTs y2 m d h mi
    | none =>
      if exp_date = "1-jan-0" ∨ exp_date = "01-jan-0000" then "9999-12-31 23:59"
      else "xxxx-xx-xx xx:xx"
  | none =>
    if exp_date = "1-jan-0" ∨ exp_date = "01-jan-0000" then "9999-12-31 23:59"
    else "xxxx-xx-xx xx:xx"

/-- adjust_year of the source, given the parsed start month and the current
month.  The source compares the zero-padded "%m" strings (equivalent to the
numeric comparison) and, in the greater-than branch, executes "yyyy -= 1"
where yyyy is the string produced by time.strftime("%Y", ...): that raises
TypeError, so the branch never produces an adjusted year. -/
def adjust_year (tvMonth currMonth : Nat) : Except Unit Unit :=
  if tvMonth > currMonth then .error () else .ok ()

/-- flexlm_start_date_to_ts: builds "mmdd/current-year hhmm", parses it with
"%m/%d/%Y %H:%M", applies adjust_year, and formats with
"%Y-%m-%d %H:%M (%a)"; any exception (a parse failure, or the TypeError
raised inside adjust_year) yields the bad-date sentinel.  The current local
time is supplied as the pair (nowY, nowM); the year formatted on the
success path is the supplied current year itself, which for any real local
clock is at least 1900, so the strftime year range check (strftimeYear)
cannot fire here and is not modelled on this path. -/
def flexlm_start_date_to_ts (nowY nowM : Nat) (mmdd hhmm : String) : String :=
  match strptimeMdy (mmdd ++ "/" ++ toString nowY ++ " " ++ hhmm).data with
  | none => "xxxx-xx-xx xx:xx (BAD DATE)"
  | some (y, m, d, h, mi) =>
    match adjust_year m nowM with
    | .error _ => "xxxx-xx-xx xx:xx (BAD DATE)"
    | .ok _ =>
      pad4 y ++ "-" ++ pad2 m ++ "-" ++ pad2 d ++ " " ++ pad2 h ++ ":" ++ pad2 mi
        ++ " (" ++ weekdayAbbrev y m d ++ ")"

example : convert_expiration_date "1-oct-2007" = "2007-10-01 23:59" := by decide
example : convert_expiration_date "1-jan-0" = "9999-12-31 23:59" := by decide
example : convert_expiration_date "not-a-date" = "xxxx-xx-xx xx:xx" := by decide
example : flexlm_start_date_to_ts 2007 9 "9/13" "12:51" = "2007-09-13 12:51 (Thu)" := by decide

/-! ### The data model -/

/-- One active checkout, as built at the usage-line branch of
_process_details (field order as in the dict constructor there). -/
structure UsageEntry where
  userid : String
  host : String
  pid : String
  start : String
  sw_version : String
  lm_version : String
deriving DecidableEq

/-- One Feature Record, as built by _process_summary. -/
structure FeatureRec where
  feature : String
  version : String
  ntotal : Int
  expires : String
  vendor : String
  nused : Nat
  usage : List UsageEntry
deriving DecidableEq

/-- The self.lminfo mapping, keyed by "name_version"; an association list
that preserves insertion order, with at most one entry per key by
construction (a new pair is only appended when the key is absent). -/
abbrev LMInfo := List (String × FeatureRec)

/-- Dict lookup. -/
def lookupRec : LMInfo → String → Option FeatureRec
  | [], _ => none
  | (k, r) :: rest, key => if k = key then some r else lookupRec rest key

/-- Dict update of an existing key (every entry carrying the key is
replaced; by construction there is at most one). -/
def updateRec : LMInfo → String → FeatureRec → LMInfo
  | [], _, _ => []
  | (k, r) :: rest, key, v =>
    if k = key then (k, v) :: updateRec rest key v
    else (k, r) :: updateRec rest key v

/-- Equality of the summary-owned fields of two Feature Records (all fields
except the usage list and the used count). -/
def sameSummaryFields (a b : FeatureRec) : Prop :=
  a.feature = b.feature ∧ a.version = b.version ∧ a.ntotal = b.ntotal ∧
  a.expires = b.expires ∧ a.vendor = b.vendor

/-- The Python exceptions the parser can raise. -/
inductive PyErr
  | valueError
  | keyError
  | unboundLocalError
deriving DecidableEq

/-- Decidable equality of computation results, for evaluating the model on
concrete inputs. -/
instance instDecEqExcept {e a : Type} [DecidableEq e] [DecidableEq a] :
    DecidableEq (Except e a) := fun x y =>
  match x, y with
  | .error u, .error v =>
    if h : u = v then isTrue (by rw [h]) else isFalse (by intro hc; cases hc; exact h rfl)
  | .ok u, .ok v =>
    if h : u = v then isTrue (by rw [h]) else isFalse (by intro hc; cases hc; exact h rfl)
  | .error _, .ok _ => isFalse (by intro hc; cases hc)
  | .ok _, .error _ => isFalse (by intro hc; cases hc)

/-! ### The section splitter (_preprocess) -/

/-- States of the linear state machine of _preprocess. -/
inductive PPState
  | init
  | featureUsageInfo
  | featureSummaryHeader
  | featureSummaryInfo
deriving DecidableEq

/-- Accumulator of _preprocess: current state, the two output line lists,
and whether the loop was left by the break on "License server status:". -/
structure PPAcc where
  state : PPState
  summary : List String
  details : List String
  stopped : Bool
deriving DecidableEq

/-- One loop iteration of _preprocess: strip the line of spaces and tabs,
split it on whitespace, and dispatch on the current state.  Once the break
was taken, the remaining lines are ignored. -/
def ppStep (acc : PPAcc) (rawLine : String) : PPAcc :=
  if acc.stopped then acc
  else
    let line := pyStrip rawLine [' ', '\t']
    let words := pySplitWs line
    match acc.state with
    | .init =>
      if line = "Feature usage info:" then { acc with state := .featureUsageInfo }
      else acc
    | .featureUsageInfo =>
      if words = ["Feature", "Version", "#licenses", "Expires", "Vendor"] then
        { acc with state := .featureSummaryHeader }
      else { acc with details := acc.details ++ [line] }
    | .featureSummaryHeader =>
      if words = ["_______", "_________", "_________", "__________", "______"] then
        { acc with state := .featureSummaryInfo }
      else acc
    | .featureSummaryInfo =>
      if words.take 3 = ["License", "server", "status:"] then { acc with stopped := true }
      else { acc with summary := acc.summary ++ [line] }

/-- The loop of _preprocess over a list of raw lines. -/
def ppRun : List String → PPAcc → PPAcc
  | [], acc => acc
  | l :: ls, acc => ppRun ls (ppStep acc l)

/-- _preprocess: split the raw text on newlines, run the state machine and
return the (summary, details) line lists. -/
def preprocess (raw : String) : List String × List String :=
  let acc := ppRun (pySplitNl raw) ⟨.init, [], [], false⟩
  (acc.summary, acc.details)

/-! ### The summary extractor (_process_summary) -/

/-- The body of the _process_summary loop for an already tokenized line:
exactly five tokens are the feature name, version, total count (int(), a
ValueError aborting the parse), expiration (normalized) and vendor; on a
key collision only ntotal is accumulated, otherwise a new record with
nused = 0 and an empty usage list is inserted. -/
def process_summary_words (m : LMInfo) (words : List String) : Except PyErr LMInfo :=
  match words with
  | [w0, w1, w2, w3, w4] =>
    match pyInt w2 with
    | none => .error .valueError
    | some ntotal =>
      match lookupRec m (w0 ++ "_" ++ w1) with
      | some r =>
        .ok (updateRec m (w0 ++ "_" ++ w1) { r with ntotal := r.ntotal + ntotal })
      | none =>
        .ok (m ++ [(w0 ++ "_" ++ w1,
          { feature := w0, version := w1, ntotal := ntotal,
            expires := convert_expiration_date w3, vendor := w4,
            nused := 0, usage := [] })])
  | _ => .ok m

/-- One line of _process_summary. -/
def process_summary_line (m : LMInfo) (line : String) : Except PyErr LMInfo :=
  process_summary_words m (pySplitWs line)

/-- The _process_summary loop. -/
def process_summary : LMInfo → List String → Except PyErr LMInfo
  | m, [] => .ok m
  | m, l :: ls =>
    match process_summary_line m l with
    | .error e => .error e
    | .ok m2 => process_summary m2 ls

/-! ### The details extractor (_process_details) -/

/-- Read an expected literal prefix, returning the rest of the input. -/
def expectPrefix : List Char → List Char → Option (List Char)
  | [], cs => some cs
  | _ :: _, [] => none
  | p :: ps, c :: cs => if c = p then expectPrefix ps cs else none

/-- Continuation of the feature-usage-header pattern after the feature name
and its colon: a whitespace run, then the literal counts text with one or
more digits in each group and an optional plural s; re.match allows
arbitrary trailing text. -/
def matchUsersOfTail (cs : List Char) : Bool :=
  match cs with
  | [] => false
  | c :: _ =>
    pyIsSpace c &&
      (match expectPrefix "(Total of ".data (cs.dropWhile pyIsSpace) with
       | none => false
       | some cs2 =>
         let ds := cs2.takeWhile Char.isDigit
         if ds.isEmpty then false
         else
           match expectPrefix " license".data (cs2.dropWhile Char.isDigit) with
           | none => false
           | some cs4 =>
             let cs5 := if cs4.head? = some 's' then cs4.tail else cs4
             match expectPrefix " issued;  Total of ".data cs5 with
             | none => false
             | some cs6 =>
               let ds2 := cs6.takeWhile Char.isDigit
               if ds2.isEmpty then false
               else
                 match expectPrefix " license".data (cs6.dropWhile Char.isDigit) with
                 | none => false
                 | some cs8 =>
                   let cs9 := if cs8.head? = some 's' then cs8.tail else cs8
                   (expectPrefix " in use)".data cs9).isSome)

/-- re.match of the feature-usage-header pattern
"Users of (\S+):\s+\(Total of (\d+) licenses? issued;  Total of (\d+)
licenses? in use\)" against a line, returning the first group.  The greedy
non-space group backtracks exactly one colon: a successful match consumes a
maximal non-space run that ends with a colon; the feature is that run
without its final colon. -/
def matchUsersOf (line : String) : Option String :=
  match expectPrefix "Users of ".data line.data with
  | none => none
  | some cs =>
    let run := cs.takeWhile (fun c => !pyIsSpace c)
    let rest := cs.dropWhile (fun c => !pyIsSpace c)
    if 2 ≤ run.length && run.getLast? = some ':' && matchUsersOfTail rest then
      some (String.mk run.dropLast)
    else none

/-- The mutable local state of the _process_details loop: the lminfo dict
plus the three cursor locals, which Python leaves unbound until their first
assignment (reading an unbound local raises UnboundLocalError). -/
structure DetState where
  lminfo : LMInfo
  current_feature : Option String
  current_version : Option String
  current_feature_uniq : Option String
deriving DecidableEq

/-- The strip and lstrip chain applied to the version token of a usage
line: strip("()") then lstrip("v"). -/
def verStrip (tok : String) : String := pyLstrip (pyStrip tok ['(', ')']) ['v']

/-- Python host.split(".")[0]: the host name up to the first dot. -/
def hostShort (host : String) : String :=
  String.mk (host.data.takeWhile (fun c => c ≠ '.'))

/-- The usage-line tail of _process_details: build the usage entry and
append it to the current record, incrementing nused.  The dict constructor
reads current_version first (line 258 of the source), then the lminfo
update reads current_feature_uniq and indexes the dict (lines 259-260):
an unbound cursor raises UnboundLocalError, a missing key KeyError. -/
def addUsage (nowY nowM : Nat) (st : DetState)
    (userid host_fullname ver_tok pid_tok date time : String) :
    Except PyErr DetState :=
  let host := hostShort host_fullname
  let ver := verStrip ver_tok
  let pid := pyRstrip pid_tok [')', ',']
  let start := flexlm_start_date_to_ts nowY nowM date time
  match st.current_version with
  | none => .error .unboundLocalError
  | some cv =>
    match st.current_feature_uniq with
    | none => .error .unboundLocalError
    | some key =>
      match lookupRec st.lminfo key with
      | none => .error .keyError
      | some r =>
        let entry : UsageEntry :=
          { userid := userid, host := host, pid := pid,
            start := start, sw_version := ver, lm_version := cv }
        let r2 := { r with usage := r.usage ++ [entry], nused := r.nused + 1 }
        .ok { st with lminfo := updateRec st.lminfo key r2 }

/-- The tokenized branches of the _process_details loop body (reached when
the feature-usage-header pattern did not match): the six-token version
sub-header, and the nine/ten-token usage-line shapes dispatched on the
position of the "start" token; any other shape falls through unchanged.
In the sub-header branch the source assigns current_version, then reads
current_feature (UnboundLocalError when no header was seen), then tests
membership of "usage" in self.lminfo[current_feature_uniq]: the indexing
itself raises KeyError when the key is absent, and for a present record
the test is always false since every record is created with a usage list. -/
def process_details_words (nowY nowM : Nat) (st : DetState) (words : List String) :
    Except PyErr DetState :=
  match words with
  | [_, w1, w2, _, _, _] =>
    if w2 = "vendor:" then
      match st.current_feature with
      | none => .error .unboundLocalError
      | some cf =>
        match lookupRec st.lminfo (cf ++ "_" ++ pyStrip w1 ['v', ',']) with
        | none => .error .keyError
        | some _ =>
          .ok { st with
                current_version := some (pyStrip w1 ['v', ',']),
                current_feature_uniq := some (cf ++ "_" ++ pyStrip w1 ['v', ',']) }
    else .ok st
  | [w0, w1, w2, _, w4, w5, _, w7, w8] =>
    if w5 = "start" then addUsage nowY nowM st w0 w1 w2 w4 w7 w8
    else .ok st
  | [w0, w1, _, w3, _, w5, w6, _, w8, w9] =>
    if w6 = "start" then addUsage nowY nowM st w0 w1 w3 w5 w8 w9
    else .ok st
  | _ => .ok st

/-- One line of the _process_details loop. -/
def process_details_line (nowY nowM : Nat) (st : DetState) (line : String) :
    Except PyErr DetState :=
  match matchUsersOf line with
  | some f => .ok { st with current_feature := some f }
  | none => process_details_words nowY nowM st (pySplitWs line)

/-- The _process_details loop. -/
def process_details (nowY nowM : Nat) : DetState → List String → Except PyErr DetState
  | st, [] => .ok st
  | st, l :: ls =>
    match process_details_line nowY nowM st l with
    | .error e => .error e
    | .ok st2 => process_details nowY nowM st2 ls

/-! ### The acquisition wrapper and the full pipeline -/

/-- The attributes of a ParseFlexlm instance used by get_license_info (the
licfile, output and verbose settings do not influence the parse). -/
structure ParseFlexlm where
  lminfo : LMInfo
  error : Bool
  error_msg : Option Int
deriving DecidableEq

/-- _get_raw_license_text: the external command result is supplied as the
captured output and the close status (none on a zero exit).  On a failure
status the error flag and message are set and the empty string is returned
in place of the captured data. -/
def get_raw_license_text (p : ParseFlexlm) (cmdData : String) (cmdStat : Option Int) :
    ParseFlexlm × String :=
  match cmdStat with
  | some s => ({ p with error := true, error_msg := some s }, "")
  | none => (p, cmdData)

/-- get_license_info: acquire the raw text, split it into the two sections,
run the summary pass then the details pass, and return the final mapping
(the source renders it as json).  The current local time for start-date
normalization is supplied as (nowY, nowM). -/
def get_license_info (p : ParseFlexlm) (nowY nowM : Nat)
    (cmdData : String) (cmdStat : Option Int) :
    Except PyErr (ParseFlexlm × LMInfo) :=
  let pr := get_raw_license_text p cmdData cmdStat
  let secs := preprocess pr.2
  match process_summary pr.1.lminfo secs.1 with
  | .error e => .error e
  | .ok m =>
    match process_details nowY nowM ⟨m, none, none, none⟩ secs.2 with
    | .error e => .error e
    | .ok st => .ok ({ pr.1 with lminfo := st.lminfo }, st.lminfo)

/-- A full parse from raw text on a fresh instance (the part of
get_license_info downstream of acquisition). -/
def full_parse (nowY nowM : Nat) (raw : String) : Except PyErr LMInfo :=
  match process_summary [] (preprocess raw).1 with
  | .error e => .error e
  | .ok m =>
    match process_details nowY nowM ⟨m, none, none, none⟩ (preprocess raw).2 with
    | .error e => .error e
    | .ok st => .ok st.lminfo

/-! ### Helper lemmas -/

theorem string_eq_of_data {a b : String} (h : a.data = b.data) : a = b := by
  cases a; cases b; exact congrArg String.mk h

theorem data_append (a b : String) : (a ++ b).data = a.data ++ b.data := rfl

theorem data_mk (l : List Char) : (String.mk l).data = l := rfl

theorem digitChar_isDigit {n : Nat} (h : n ≤ 9) : (digitChar n).isDigit = true := by
  interval_cases n <;> decide

theorem charVal_digitChar {n : Nat} (h : n ≤ 9) : charVal (digitChar n) = n := by
  interval_cases n <;> decide

theorem parse2or1_one (ok2 ok1 : Nat → Bool) {e : Nat} (he : e ≤ 9) {c : Char}
    (hc : c.isDigit = false) (cs : List Char) (h1 : ok1 e = true) :
    parse2or1 ok2 ok1 (digitChar e :: c :: cs) = some (e, c :: cs) := by
  simp [parse2or1, digitChar_isDigit he, charVal_digitChar he, hc, h1]

theorem parse2or1_two (ok2 ok1 : Nat → Bool) {e1 e2 : Nat} (he1 : e1 ≤ 9) (he2 : e2 ≤ 9)
    (cs : List Char) (h2 : ok2 (10 * e1 + e2) = true) :
    parse2or1 ok2 ok1 (digitChar e1 :: digitChar e2 :: cs) = some (10 * e1 + e2, cs) := by
  simp [parse2or1, digitChar_isDigit he1, digitChar_isDigit he2,
        charVal_digitChar he1, charVal_digitChar he2, h2]

theorem parseYearTok_four {e1 e2 e3 e4 : Nat} (h1 : e1 ≤ 9) (h2 : e2 ≤ 9) (h3 : e3 ≤ 9)
    (h4 : e4 ≤ 9) (cs : List Char) :
    parseYearTok (digitChar e1 :: digitChar e2 :: digitChar e3 :: digitChar e4 :: cs)
      = some (((e1 * 10 + e2) * 10 + e3) * 10 + e4, cs) := by
  simp [parseYearTok, digitChar_isDigit h1, digitChar_isDigit h2, digitChar_isDigit h3,
        digitChar_isDigit h4, charVal_digitChar h1, charVal_digitChar h2,
        charVal_digitChar h3, charVal_digitChar h4]

theorem monthLookup_bounds {s : String} {m : Nat} (h : monthLookup s = some m) :
    1 ≤ m ∧ m ≤ 12 := by
  unfold monthLookup at h
  split at h
  all_goals (first | exact Option.noConfusion h | (injection h with h2; omega))

theorem parseMonthTok_append {s : String} {m : Nat} (rest : List Char)
    (h : monthNum s = some m) :
    parseMonthTok (s.data ++ rest) = some (m, rest) := by
  unfold monthNum at h
  rcases hd : s.data with _ | ⟨a, _ | ⟨b, _ | ⟨c, _ | ⟨d, l⟩⟩⟩⟩ <;> rw [hd] at h <;>
    simp only [] at h <;> try exact absurd h (by simp)
  simp [parseMonthTok, h]

theorem daysInMonth_le_31 (y m : Nat) : daysInMonth y m ≤ 31 := by
  unfold daysInMonth
  split <;> (try split) <;> omega

theorem pad4_digits {e1 e2 e3 e4 : Nat} (h1 : e1 ≤ 9) (h2 : e2 ≤ 9) (h3 : e3 ≤ 9)
    (h4 : e4 ≤ 9) :
    pad4 (1000 * e1 + 100 * e2 + 10 * e3 + e4)
      = String.mk [digitChar e1, digitChar e2, digitChar e3, digitChar e4] := by
  unfold pad4
  rw [show (1000 * e1 + 100 * e2 + 10 * e3 + e4) / 1000 % 10 = e1 by omega,
      show (1000 * e1 + 100 * e2 + 10 * e3 + e4) / 100 % 10 = e2 by omega,
      show (1000 * e1 + 100 * e2 + 10 * e3 + e4) / 10 % 10 = e3 by omega,
      show (1000 * e1 + 100 * e2 + 10 * e3 + e4) % 10 = e4 by omega]

theorem lookupRec_mem {m : LMInfo} {k : String} {r : FeatureRec}
    (h : lookupRec m k = some r) : (k, r) ∈ m := by
  induction m with
  | nil => exact Option.noConfusion h
  | cons p rest ih =>
    rcases p with ⟨k2, r2⟩
    unfold lookupRec at h
    by_cases hk : k2 = k
    · rw [if_pos hk] at h
      injection h with h2
      subst hk h2
      exact List.mem_cons_self _ _
    · rw [if_neg hk] at h
      exact List.mem_cons_of_mem _ (ih h)

theorem mem_updateRec {m : LMInfo} {k : String} {v : FeatureRec} {p : String × FeatureRec}
    (h : p ∈ updateRec m k v) : p ∈ m ∨ p.2 = v := by
  induction m with
  | nil => exact absurd h (by simp [updateRec])
  | cons q rest ih =>
    rcases q with ⟨k2, r2⟩
    unfold updateRec at h
    by_cases hk : k2 = k
    · rw [if_pos hk] at h
      rcases List.mem_cons.mp h with h1 | h1
      · right
        rw [h1]
      · rcases ih h1 with h2 | h2
        · exact Or.inl (List.mem_cons_of_mem _ h2)
        · exact Or.inr h2
    · rw [if_neg hk] at h
      rcases List.mem_cons.mp h with h1 | h1
      · exact Or.inl (h1 ▸ List.mem_cons_self _ _)
      · rcases ih h1 with h2 | h2
        · exact Or.inl (List.mem_cons_of_mem _ h2)
        · exact Or.inr h2

theorem lookupRec_updateRec_self {m : LMInfo} {k : String} {r : FeatureRec}
    (v : FeatureRec) (h : lookupRec m k = some r) :
    lookupRec (updateRec m k v) k = some v := by
  induction m with
  | nil => exact Option.noConfusion h
  | cons p rest ih =>
    rcases p with ⟨k2, r2⟩
    unfold lookupRec at h
    unfold updateRec
    by_cases hk : k2 = k
    · rw [if_pos hk]
      unfold lookupRec
      rw [if_pos hk]
    · rw [if_neg hk] at h
      rw [if_neg hk]
      unfold lookupRec
      rw [if_neg hk]
      exact ih h

theorem lookupRec_updateRec_ne {m : LMInfo} {k k2 : String} (v : FeatureRec)
    (hne : k2 ≠ k) : lookupRec (updateRec m k v) k2 = lookupRec m k2 := by
  induction m with
  | nil => rfl
  | cons p rest ih =>
    rcases p with ⟨k3, r3⟩
    unfold updateRec
    by_cases hk : k3 = k
    · rw [if_pos hk]
      unfold lookupRec
      have h1 : ¬ (k3 = k2) := fun hc => hne ((hc.symm).trans hk)
      rw [if_neg h1, if_neg h1]
      exact ih
    · rw [if_neg hk]
      unfold lookupRec
      by_cases hk2 : k3 = k2
      · rw [if_pos hk2, if_pos hk2]
      · rw [if_neg hk2, if_neg hk2]
        exact ih

theorem ppRun_stopped {acc : PPAcc} (lines : List String) (h : acc.stopped = true) :
    ppRun lines acc = acc := by
  induction lines with
  | nil => rfl
  | cons l ls ih =>
    unfold ppRun
    have hstep : ppStep acc l = acc := by
      unfold ppStep
      rw [h]
      simp
    rw [hstep, ih]

/-! ### Claim theorems -/

/-- C1: processing a five-token summary line whose key name_version already
exists in the map adds the parsed total count to the existing ntotal and
leaves feature, version, expires and vendor (and nused/usage) untouched;
a fresh key appends a new record with nused = 0 and an empty usage list. -/
theorem summary_merge_rule
    (m : LMInfo) (line w0 w1 w2 w3 w4 : String) (n : Int)
    (hw : pySplitWs line = [w0, w1, w2, w3, w4])
    (hn : pyInt w2 = some n) :
    (∀ r : FeatureRec, lookupRec m (w0 ++ "_" ++ w1) = some r →
      process_summary_line m line =
        .ok (updateRec m (w0 ++ "_" ++ w1) { r with ntotal := r.ntotal + n })) ∧
    (lookupRec m (w0 ++ "_" ++ w1) = none →
      process_summary_line m line =
        .ok (m ++ [(w0 ++ "_" ++ w1,
          { feature := w0, version := w1, ntotal := n,
            expires := convert_expiration_date w3, vendor := w4,
            nused := 0, usage := [] })])) := by
  constructor
  · intro r hr
    simp [process_summary_line, process_summary_words, hw, hn, hr]
  · intro hr
    simp [process_summary_line, process_summary_words, hw, hn, hr]

/-- Witness for summary_merge_rule: a duplicate key accumulates the count. -/
theorem summary_merge_rule_witness :
    process_summary_line
        [("featA_1.000", ⟨"featA", "1.000", 5, "2015-01-01 23:59", "acme", 0, []⟩)]
        "featA 1.000 3 1-jan-2015 acme"
      = .ok [("featA_1.000", ⟨"featA", "1.000", 8, "2015-01-01 23:59", "acme", 0, []⟩)] := by
  have h := (summary_merge_rule
      [("featA_1.000", ⟨"featA", "1.000", 5, "2015-01-01 23:59", "acme", 0, []⟩)]
      "featA 1.000 3 1-jan-2015 acme" "featA" "1.000" "3" "1-jan-2015" "acme" 3
      (by decide) (by decide)).1
      ⟨"featA", "1.000", 5, "2015-01-01 23:59", "acme", 0, []⟩
      (by decide)
  exact h.trans (by decide)

/-- C4: a version sub-header whose derived key is absent from the Feature
Record map makes _process_details raise KeyError (the membership test
indexes self.lminfo with the missing key before testing), rather than
creating an empty usage list defensively. -/
theorem subheader_missing_key_keyerror :
    process_details 2012 9 ⟨[], none, none, none⟩
      ["Users of FOO: (Total of 2 licenses issued;  Total of 1 license in use)",
       "\"FOO\" v1.000, vendor: acme, expiry: 1-jan-0"]
      = .error .keyError := by decide

/-- C5 counterexample: "31-feb-2007" has the D-MMM-YYYY form (2-digit day,
3-letter month, 4-digit year) yet is mapped to the unknown sentinel, not to
"2007-02-31 23:59", because strptime rejects the nonexistent calendar day;
and "1-jan-1500" names a valid calendar date of that form yet is also
mapped to the unknown sentinel, not to "1500-01-01 23:59", because the
Python 2 strftime rejects years below 1900. -/
theorem convert_expiration_invalid_calendar_day :
    convert_expiration_date "31-feb-2007" ≠ "2007-02-31 23:59" ∧
    convert_expiration_date "31-feb-2007" = "xxxx-xx-xx xx:xx" ∧
    convert_expiration_date "1-jan-1500" ≠ "1500-01-01 23:59" ∧
    convert_expiration_date "1-jan-1500" = "xxxx-xx-xx xx:xx" := by decide

/-- C6: with the current date in January 2026, the start date "12/15 9:08"
does not normalize to the previous calendar year: the month-greater-than-
current branch of adjust_year raises TypeError (the year variable holds a
string), the broad except catches it, and the bad-date sentinel results. -/
theorem start_date_december_in_january_bad_date :
    flexlm_start_date_to_ts 2026 1 "12/15" "9:08" = "xxxx-xx-xx xx:xx (BAD DATE)" ∧
    flexlm_start_date_to_ts 2026 1 "12/15" "9:08" ≠ "2025-12-15 09:08 (Mon)" := by decide

/-- C10: a recognized ten-token usage line that is reached before any
version sub-header assigned the cursor locals raises an unhandled exception
(UnboundLocalError on the unset cursor) instead of being skipped. -/
theorem usage_line_without_subheader_raises :
    process_details 2012 9 ⟨[], none, none, none⟩
      ["someguy ahost ahost (v1.000) (imdlic01/7111 7581), start Wed 9/12 9:08"]
      = .error .unboundLocalError := by decide

/-- C7: once the splitter is in the summary state, the (stripped) lines
preceding the first line whose first three tokens are "License server
status:" are exactly what gets appended to the summary output; at that
line the loop breaks, so every later line of the input is discarded
whatever it contains. -/
theorem summary_stops_at_marker
    (pre rest : List String) (marker : String) (acc : PPAcc)
    (hstate : acc.state = .featureSummaryInfo) (hstop : acc.stopped = false)
    (hpre : ∀ l ∈ pre,
      (pySplitWs (pyStrip l [' ', '\t'])).take 3 ≠ ["License", "server", "status:"])
    (hm : (pySplitWs (pyStrip marker [' ', '\t'])).take 3
            = ["License", "server", "status:"]) :
    ppRun (pre ++ marker :: rest) acc =
      { acc with summary := acc.summary ++ pre.map (fun l => pyStrip l [' ', '\t']),
                 stopped := true } := by
  induction pre generalizing acc with
  | nil =>
    rw [List.nil_append]
    unfold ppRun
    have hstep : ppStep acc marker = { acc with stopped := true } := by
      simp only [ppStep, hstop, hstate]
      simp [hm]
    rw [hstep, ppRun_stopped rest rfl]
    simp
  | cons l ls ih =>
    rw [List.cons_append]
    unfold ppRun
    have hl := hpre l (List.mem_cons_self _ _)
    have hstep : ppStep acc l =
        { acc with summary := acc.summary ++ [pyStrip l [' ', '\t']] } := by
      simp only [ppStep, hstop, hstate]
      simp [hl]
    rw [hstep]
    rw [ih { acc with summary := acc.summary ++ [pyStrip l [' ', '\t']] }
          hstate hstop (fun l2 hl2 => hpre l2 (List.mem_cons_of_mem _ hl2))]
    simp

/-- Witness for summary_stops_at_marker on a concrete two-block input. -/
theorem summary_stops_at_marker_witness :
    ppRun ["featB 2.000 4 1-jan-2020 acme",
           "License server status: 27000@srv",
           "featB 2.000 4 1-jan-2020 acme"]
        ⟨.featureSummaryInfo, ["old"], ["det"], false⟩
      = ⟨.featureSummaryInfo, ["old", "featB 2.000 4 1-jan-2020 acme"], ["det"], true⟩ := by
  have h := summary_stops_at_marker
      ["featB 2.000 4 1-jan-2020 acme"]
      ["featB 2.000 4 1-jan-2020 acme"]
      "License server status: 27000@srv"
      ⟨.featureSummaryInfo, ["old"], ["det"], false⟩
      rfl rfl (by decide) (by decide)
  exact h.trans (by decide)

/-- C8: when acquisition fails (a failure close status), the captured
command output is discarded unparsed: whatever it contains, the call
returns the empty mapping with the error flag and message set, on any
fresh instance. -/
theorem acquisition_failure_empty_result
    (p : ParseFlexlm) (nowY nowM : Nat) (data : String) (code : Int)
    (hfresh : p.lminfo = []) :
    get_license_info p nowY nowM data (some code) =
      .ok ({ p with lminfo := [], error := true, error_msg := some code }, []) := by
  have hpre : preprocess "" = ([], []) := by decide
  simp only [get_license_info, get_raw_license_text, hpre, hfresh]
  rfl

/-- Witness for acquisition_failure_empty_result at a concrete failure. -/
theorem acquisition_failure_empty_result_witness :
    get_license_info ⟨[], false, none⟩ 2012 9 "lmutil not found" (some 1) =
      .ok (⟨[], true, some 1⟩, []) := by
  have h := acquisition_failure_empty_result ⟨[], false, none⟩ 2012 9 "lmutil not found" 1 rfl
  exact h.trans (by decide)

theorem inv_summary_line {m m2 : LMInfo} {l : String}
    (h : process_summary_line m l = .ok m2)
    (hm : ∀ p ∈ m, p.2.nused = p.2.usage.length) :
    ∀ p ∈ m2, p.2.nused = p.2.usage.length := by
  unfold process_summary_line process_summary_words at h
  split at h
  case h_2 => injection h with h2; subst h2; exact hm
  case h_1 w0 w1 w2 w3 w4 =>
    split at h
    · exact Except.noConfusion h
    case h_2 n hn =>
      split at h
      case h_1 r hr =>
        injection h with h2
        subst h2
        intro p hp
        rcases mem_updateRec hp with h3 | h3
        · exact hm p h3
        · rw [h3]
          exact hm _ (lookupRec_mem hr)
      case h_2 hr =>
        injection h with h2
        subst h2
        intro p hp
        rcases List.mem_append.mp hp with h3 | h3
        · exact hm p h3
        · simp at h3
          subst h3
          rfl

theorem inv_details_line {nowY nowM : Nat} {st st2 : DetState} {l : String}
    (h : process_details_line nowY nowM st l = .ok st2)
    (hm : ∀ p ∈ st.lminfo, p.2.nused = p.2.usage.length) :
    ∀ p ∈ st2.lminfo, p.2.nused = p.2.usage.length := by
  unfold process_details_line at h
  split at h
  · injection h with h2; subst h2; exact hm
  · unfold process_details_words at h
    split at h
    case h_1 =>
      split at h
      · split at h
        · exact Except.noConfusion h
        · split at h
          · exact Except.noConfusion h
          · injection h with h2; subst h2; exact hm
      · injection h with h2; subst h2; exact hm
    case h_2 =>
      split at h
      · unfold addUsage at h
        split at h
        · exact Except.noConfusion h
        · split at h
          · exact Except.noConfusion h
          · split at h
            · exact Except.noConfusion h
            case h_2 r hr =>
              injection h with h2
              subst h2
              intro p hp
              rcases mem_updateRec hp with h3 | h3
              · exact hm p h3
              · have h4 : r.nused = r.usage.length := hm _ (lookupRec_mem hr)
                rw [h3]
                simp [h4]
      · injection h with h2; subst h2; exact hm
    case h_3 =>
      split at h
      · unfold addUsage at h
        split at h
        · exact Except.noConfusion h
        · split at h
          · exact Except.noConfusion h
          · split at h
            · exact Except.noConfusion h
            case h_2 r hr =>
              injection h with h2
              subst h2
              intro p hp
              rcases mem_updateRec hp with h3 | h3
              · exact hm p h3
              · have h4 : r.nused = r.usage.length := hm _ (lookupRec_mem hr)
                rw [h3]
                simp [h4]
      · injection h with h2; subst h2; exact hm
    case h_4 => injection h with h2; subst h2; exact hm

theorem inv_summary {ls : List String} {m m2 : LMInfo}
    (h : process_summary m ls = .ok m2)
    (hm : ∀ p ∈ m, p.2.nused = p.2.usage.length) :
    ∀ p ∈ m2, p.2.nused = p.2.usage.length := by
  induction ls generalizing m with
  | nil =>
    unfold process_summary at h
    injection h with h2
    subst h2
    exact hm
  | cons l ls ih =>
    unfold process_summary at h
    split at h
    · exact Except.noConfusion h
    case h_2 m3 hline => exact ih h (inv_summary_line hline hm)

theorem inv_details {nowY nowM : Nat} {ls : List String} {st st2 : DetState}
    (h : process_details nowY nowM st ls = .ok st2)
    (hm : ∀ p ∈ st.lminfo, p.2.nused = p.2.usage.length) :
    ∀ p ∈ st2.lminfo, p.2.nused = p.2.usage.length := by
  induction ls generalizing st with
  | nil =>
    unfold process_details at h
    injection h with h2
    subst h2
    exact hm
  | cons l ls ih =>
    unfold process_details at h
    split at h
    · exact Except.noConfusion h
    case h_2 st3 hline => exact ih h (inv_details_line hline hm)

/-- C2: after a successful full parse, every Feature Record in the result
map satisfies nused = length of its usage list. -/
theorem nused_equals_usage_length (nowY nowM : Nat) (raw : String) (m : LMInfo)
    (h : full_parse nowY nowM raw = .ok m) :
    ∀ p ∈ m, p.2.nused = p.2.usage.length := by
  unfold full_parse at h
  split at h
  · exact Except.noConfusion h
  case h_2 m1 hsum =>
    split at h
    · exact Except.noConfusion h
    case h_2 st hdet =>
      injection h with h2
      subst h2
      exact inv_details hdet (inv_summary hsum (by intro p hp; simp at hp))

/-- Witness for nused_equals_usage_length on a parse with one checkout. -/
theorem nused_equals_usage_length_witness :
    (("featC_2.000", (⟨"featC", "2.000", 4, "2015-01-01 23:59", "acme", 1,
        [⟨"userx", "hostx", "101", "2012-09-12 09:08 (Wed)", "2.000", "2.000"⟩]⟩
        : FeatureRec)) : String × FeatureRec).2.nused =
      (("featC_2.000", (⟨"featC", "2.000", 4, "2015-01-01 23:59", "acme", 1,
        [⟨"userx", "hostx", "101", "2012-09-12 09:08 (Wed)", "2.000", "2.000"⟩]⟩
        : FeatureRec)) : String × FeatureRec).2.usage.length := by
  refine nused_equals_usage_length 2012 9
      ("Feature usage info:\nUsers of featC:  (Total of 4 licenses issued;  Total of 1 license in use)\n\"featC\" v2.000, vendor: acme, expiry: 1-jan-2015\nuserx hostx hostx (v2.000) (srv/27000 101), start Wed 9/12 9:08\nFeature Version #licenses Expires Vendor\n_______ _________ _________ __________ ______\nfeatC 2.000 4 1-jan-2015 acme")
      [("featC_2.000", ⟨"featC", "2.000", 4, "2015-01-01 23:59", "acme", 1,
        [⟨"userx", "hostx", "101", "2012-09-12 09:08 (Wed)", "2.000", "2.000"⟩]⟩)]
      (by decide) _ ?_
  decide

theorem frame_addUsage {nowY nowM : Nat} {st st2 : DetState}
    {u hf vt pt dt tt : String}
    (h : addUsage nowY nowM st u hf vt pt dt tt = .ok st2)
    {k : String} {r : FeatureRec} (hk : lookupRec st.lminfo k = some r) :
    ∃ r2, lookupRec st2.lminfo k = some r2 ∧ sameSummaryFields r2 r := by
  unfold addUsage at h
  cases hcv : st.current_version with
  | none => rw [hcv] at h; exact Except.noConfusion h
  | some cv =>
    simp only [hcv] at h
    cases hku : st.current_feature_uniq with
    | none => rw [hku] at h; exact Except.noConfusion h
    | some key =>
      simp only [hku] at h
      cases hr0 : lookupRec st.lminfo key with
      | none => rw [hr0] at h; exact Except.noConfusion h
      | some r0 =>
        simp only [hr0] at h
        injection h with h2
        subst h2
        by_cases hkey : k = key
        · subst hkey
          rw [hk] at hr0
          injection hr0 with h3
          subst h3
          exact ⟨_, lookupRec_updateRec_self _ hk, rfl, rfl, rfl, rfl, rfl⟩
        · exact ⟨r, (lookupRec_updateRec_ne _ hkey).trans hk, rfl, rfl, rfl, rfl, rfl⟩

theorem frame_details_line {nowY nowM : Nat} {st st2 : DetState} {l k : String}
    {r : FeatureRec}
    (h : process_details_line nowY nowM st l = .ok st2)
    (hk : lookupRec st.lminfo k = some r) :
    ∃ r2, lookupRec st2.lminfo k = some r2 ∧ sameSummaryFields r2 r := by
  unfold process_details_line at h
  split at h
  · injection h with h2
    subst h2
    exact ⟨r, hk, rfl, rfl, rfl, rfl, rfl⟩
  · unfold process_details_words at h
    split at h
    case h_1 =>
      split at h
      · split at h
        · exact Except.noConfusion h
        · split at h
          · exact Except.noConfusion h
          · injection h with h2
            subst h2
            exact ⟨r, hk, rfl, rfl, rfl, rfl, rfl⟩
      · injection h with h2
        subst h2
        exact ⟨r, hk, rfl, rfl, rfl, rfl, rfl⟩
    case h_2 =>
      split at h
      · exact frame_addUsage h hk
      · injection h with h2
        subst h2
        exact ⟨r, hk, rfl, rfl, rfl, rfl, rfl⟩
    case h_3 =>
      split at h
      · exact frame_addUsage h hk
      · injection h with h2
        subst h2
        exact ⟨r, hk, rfl, rfl, rfl, rfl, rfl⟩
    case h_4 =>
      injection h with h2
      subst h2
      exact ⟨r, hk, rfl, rfl, rfl, rfl, rfl⟩

/-- C9: the details pass never touches the summary-owned fields: every
record present before _process_details runs is still found under its key
afterwards with the same feature, version, ntotal, expires and vendor
(only nused and the usage list may differ); the counts appearing in
feature usage headers are never applied to the record. -/
theorem details_preserves_summary_fields (nowY nowM : Nat) (lines : List String)
    (st st2 : DetState) (k : String) (r : FeatureRec)
    (h : process_details nowY nowM st lines = .ok st2)
    (hk : lookupRec st.lminfo k = some r) :
    ∃ r2, lookupRec st2.lminfo k = some r2 ∧ sameSummaryFields r2 r := by
  induction lines generalizing st r with
  | nil =>
    unfold process_details at h
    injection h with h2
    subst h2
    exact ⟨r, hk, rfl, rfl, rfl, rfl, rfl⟩
  | cons l ls ih =>
    unfold process_details at h
    split at h
    · exact Except.noConfusion h
    case h_2 st3 hline =>
      rcases frame_details_line hline hk with ⟨r3, hl3, f1, f2, f3, f4, f5⟩
      rcases ih st3 r3 h hl3 with ⟨r4, hl4, g1, g2, g3, g4, g5⟩
      exact ⟨r4, hl4, g1.trans f1, g2.trans f2, g3.trans f3, g4.trans f4, g5.trans f5⟩

/-- Witness for details_preserves_summary_fields with one usage line. -/
theorem details_preserves_summary_fields_witness :
    ∃ r2, lookupRec
        (updateRec [("featD_1.000", (⟨"featD", "1.000", 3, "2015-01-01 23:59", "acme",
            0, []⟩ : FeatureRec))] "featD_1.000"
          (⟨"featD", "1.000", 3, "2015-01-01 23:59", "acme", 1,
            [⟨"someguy", "ahost", "7581", "2012-09-12 09:08 (Wed)", "1.000", "1.000"⟩]⟩))
        "featD_1.000" = some r2 ∧
      sameSummaryFields r2
        ⟨"featD", "1.000", 3, "2015-01-01 23:59", "acme", 0, []⟩ := by
  exact details_preserves_summary_fields 2012 9
      ["someguy ahost ahost (v1.000) (srv/7111 7581), start Wed 9/12 9:08"]
      ⟨[("featD_1.000", ⟨"featD", "1.000", 3, "2015-01-01 23:59", "acme", 0, []⟩)],
        none, some "1.000", some "featD_1.000"⟩
      ⟨updateRec [("featD_1.000", ⟨"featD", "1.000", 3, "2015-01-01 23:59", "acme",
          0, []⟩)] "featD_1.000"
        ⟨"featD", "1.000", 3, "2015-01-01 23:59", "acme", 1,
          [⟨"someguy", "ahost", "7581", "2012-09-12 09:08 (Wed)", "1.000", "1.000"⟩]⟩,
        none, some "1.000", some "featD_1.000"⟩
      "featD_1.000"
      ⟨"featD", "1.000", 3, "2015-01-01 23:59", "acme", 0, []⟩
      (by decide) (by decide)

/-- C3: with the cursor locals set and the current key present, a ten-token
usage line with token 6 equal to "start" contributes the entry built from
version token 3, pid token 5, date token 8 and time token 9, and a
nine-token line with token 5 equal to "start" the entry built from version
token 2, pid token 4, date token 7 and time token 8; in both shapes the
userid is token 0 and the host is token 1 cut at its first dot, so the two
shapes produce identical results when the corresponding tokens agree; a
nine/ten-token line whose "start" token is elsewhere is skipped unchanged. -/
theorem usage_line_token_extraction
    (nowY nowM : Nat) (st : DetState) (cv key : String) (r : FeatureRec)
    (hv : st.current_version = some cv)
    (hu : st.current_feature_uniq = some key)
    (hr : lookupRec st.lminfo key = some r) :
    (∀ line w0 w1 w2 w3 w4 w5 w7 w8 w9 : String,
      matchUsersOf line = none →
      pySplitWs line = [w0, w1, w2, w3, w4, w5, "start", w7, w8, w9] →
      process_details_line nowY nowM st line =
        .ok (DetState.mk
          (updateRec st.lminfo key
            { r with
              usage := r.usage ++
                [⟨w0, hostShort w1, pyRstrip w5 [')', ','],
                  flexlm_start_date_to_ts nowY nowM w8 w9, verStrip w3, cv⟩],
              nused := r.nused + 1 })
          st.current_feature st.current_version st.current_feature_uniq)) ∧
    (∀ line w0 w1 w2 w3 w4 w6 w7 w8 : String,
      matchUsersOf line = none →
      pySplitWs line = [w0, w1, w2, w3, w4, "start", w6, w7, w8] →
      process_details_line nowY nowM st line =
        .ok (DetState.mk
          (updateRec st.lminfo key
            { r with
              usage := r.usage ++
                [⟨w0, hostShort w1, pyRstrip w4 [')', ','],
                  flexlm_start_date_to_ts nowY nowM w7 w8, verStrip w2, cv⟩],
              nused := r.nused + 1 })
          st.current_feature st.current_version st.current_feature_uniq)) ∧
    (∀ la lb u hn y1 y2 y3 y4 y5 v p d t : String,
      matchUsersOf la = none → matchUsersOf lb = none →
      pySplitWs la = [u, hn, y1, v, y2, p, "start", y3, d, t] →
      pySplitWs lb = [u, hn, v, y4, p, "start", y5, d, t] →
      process_details_line nowY nowM st la = process_details_line nowY nowM st lb) ∧
    (∀ line w0 w1 w2 w3 w4 w5 w6 w7 w8 w9 : String,
      matchUsersOf line = none → w6 ≠ "start" →
      pySplitWs line = [w0, w1, w2, w3, w4, w5, w6, w7, w8, w9] →
      process_details_line nowY nowM st line = .ok st) ∧
    (∀ line w0 w1 w2 w3 w4 w5 w6 w7 w8 : String,
      matchUsersOf line = none → w5 ≠ "start" →
      pySplitWs line = [w0, w1, w2, w3, w4, w5, w6, w7, w8] →
      process_details_line nowY nowM st line = .ok st) := by
  have c10 : ∀ line w0 w1 w2 w3 w4 w5 w7 w8 w9 : String,
      matchUsersOf line = none →
      pySplitWs line = [w0, w1, w2, w3, w4, w5, "start", w7, w8, w9] →
      process_details_line nowY nowM st line =
        .ok (DetState.mk
          (updateRec st.lminfo key
            { r with
              usage := r.usage ++
                [⟨w0, hostShort w1, pyRstrip w5 [')', ','],
                  flexlm_start_date_to_ts nowY nowM w8 w9, verStrip w3, cv⟩],
              nused := r.nused + 1 })
          st.current_feature st.current_version st.current_feature_uniq) := by
    intro line w0 w1 w2 w3 w4 w5 w7 w8 w9 hmu hw
    simp only [process_details_line, hmu, hw, process_details_words]
    simp only [if_pos rfl, if_true, addUsage, hv, hu, hr]
  have c9 : ∀ line w0 w1 w2 w3 w4 w6 w7 w8 : String,
      matchUsersOf line = none →
      pySplitWs line = [w0, w1, w2, w3, w4, "start", w6, w7, w8] →
      process_details_line nowY nowM st line =
        .ok (DetState.mk
          (updateRec st.lminfo key
            { r with
              usage := r.usage ++
                [⟨w0, hostShort w1, pyRstrip w4 [')', ','],
                  flexlm_start_date_to_ts nowY nowM w7 w8, verStrip w2, cv⟩],
              nused := r.nused + 1 })
          st.current_feature st.current_version st.current_feature_uniq) := by
    intro line w0 w1 w2 w3 w4 w6 w7 w8 hmu hw
    simp only [process_details_line, hmu, hw, process_details_words]
    simp only [if_pos rfl, if_true, addUsage, hv, hu, hr]
  refine ⟨c10, c9, ?_, ?_, ?_⟩
  · intro la lb u hn y1 y2 y3 y4 y5 v p d t hma hmb hwa hwb
    rw [c10 la u hn y1 v y2 p y3 d t hma hwa,
        c9 lb u hn v y4 p y5 d t hmb hwb]
  · intro line w0 w1 w2 w3 w4 w5 w6 w7 w8 w9 hmu hns hw
    simp only [process_details_line, hmu, hw, process_details_words]
    simp [hns]
  · intro line w0 w1 w2 w3 w4 w5 w6 w7 w8 hmu hns hw
    simp only [process_details_line, hmu, hw, process_details_words]
    simp [hns]

/-- Witness for usage_line_token_extraction at a concrete ten-token line. -/
theorem usage_line_token_extraction_witness :
    process_details_line 2012 9
        ⟨[("featE_1.000", (⟨"featE", "1.000", 3, "2015-01-01 23:59", "acme",
            0, []⟩ : FeatureRec))], none, some "1.000", some "featE_1.000"⟩
        "someguy ahost ahost (v1.000) (imdlic01/7111 7581), start Wed 9/12 9:08"
      = .ok ⟨[("featE_1.000", ⟨"featE", "1.000", 3, "2015-01-01 23:59", "acme", 1,
          [⟨"someguy", "ahost", "7581", "2012-09-12 09:08 (Wed)", "1.000", "1.000"⟩]⟩)],
          none, some "1.000", some "featE_1.000"⟩ := by
  have h := (usage_line_token_extraction 2012 9
      ⟨[("featE_1.000", ⟨"featE", "1.000", 3, "2015-01-01 23:59", "acme", 0, []⟩)],
        none, some "1.000", some "featE_1.000"⟩
      "1.000" "featE_1.000"
      ⟨"featE", "1.000", 3, "2015-01-01 23:59", "acme", 0, []⟩
      rfl rfl (by decide)).1
      "someguy ahost ahost (v1.000) (imdlic01/7111 7581), start Wed 9/12 9:08"
      "someguy" "ahost" "ahost" "(v1.000)" "(imdlic01/7111" "7581)," "Wed" "9/12" "9:08"
      (by decide) (by decide)
  exact h.trans (by decide)

theorem convert_valid_general
    (d m e1 e2 y1 y2 y3 y4 : Nat) (ds ms : String)
    (hms : monthNum ms = some m)
    (hds : (ds = String.mk [digitChar e1] ∧ d = e1 ∧ 1 ≤ e1 ∧ e1 ≤ 9) ∨
           (ds = String.mk [digitChar e1, digitChar e2] ∧ d = 10 * e1 + e2 ∧
            e1 ≤ 9 ∧ e2 ≤ 9 ∧ 1 ≤ d))
    (hy1 : 1 ≤ y1) (hy1b : y1 ≤ 9) (hy2 : y2 ≤ 9) (hy3 : y3 ≤ 9) (hy4 : y4 ≤ 9)
    (hy1900 : 1900 ≤ 1000 * y1 + 100 * y2 + 10 * y3 + y4)
    (hd : d ≤ daysInMonth (1000 * y1 + 100 * y2 + 10 * y3 + y4) m) :
    convert_expiration_date (ds ++ "-" ++ ms ++ "-"
        ++ String.mk [digitChar y1, digitChar y2, digitChar y3, digitChar y4])
      = String.mk [digitChar y1, digitChar y2, digitChar y3, digitChar y4]
          ++ "-" ++ pad2 m ++ "-" ++ pad2 d ++ " 23:59" := by
  have hd31 : d ≤ 31 := le_trans hd (daysInMonth_le_31 _ _)
  have h1d : 1 ≤ d := by
    rcases hds with ⟨_, h1, h2, _⟩ | ⟨_, _, _, _, h2⟩ <;> omega
  have hlit1 : ("-" : String).data = ['-'] := rfl
  have hlit2 : (" 23:59" : String).data = [' ', '2', '3', ':', '5', '9'] := rfl
  have hday : parseDayTok (ds.data ++ '-' ::
      (ms.data ++ '-' :: (digitChar y1 :: digitChar y2 :: digitChar y3 :: digitChar y4 ::
        ' ' :: '2' :: '3' :: ':' :: '5' :: '9' :: [])))
      = some (d, '-' :: (ms.data ++ '-' ::
          (digitChar y1 :: digitChar y2 :: digitChar y3 :: digitChar y4 ::
            ' ' :: '2' :: '3' :: ':' :: '5' :: '9' :: []))) := by
    rcases hds with ⟨hds1, hde, h2, h3⟩ | ⟨hds1, hde, h2, h3, h4⟩
    · subst hde
      rw [hds1]
      simp only [data_mk, List.singleton_append, List.cons_append, List.nil_append]
      exact parse2or1_one _ _ h3 (by decide) _ (by simp [h2, h3])
    · subst hde
      rw [hds1]
      simp only [data_mk, List.singleton_append, List.cons_append, List.nil_append]
      exact parse2or1_two _ _ h2 h3 _ (by simp [h4, hd31])
  have hmon : parseMonthTok (ms.data ++ '-' ::
      (digitChar y1 :: digitChar y2 :: digitChar y3 :: digitChar y4 ::
        ' ' :: '2' :: '3' :: ':' :: '5' :: '9' :: []))
      = some (m, '-' :: (digitChar y1 :: digitChar y2 :: digitChar y3 :: digitChar y4 ::
          ' ' :: '2' :: '3' :: ':' :: '5' :: '9' :: [])) :=
    parseMonthTok_append _ hms
  have hyear : parseYearTok (digitChar y1 :: digitChar y2 :: digitChar y3 :: digitChar y4 ::
      ' ' :: '2' :: '3' :: ':' :: '5' :: '9' :: [])
      = some (((y1 * 10 + y2) * 10 + y3) * 10 + y4,
          ' ' :: '2' :: '3' :: ':' :: '5' :: '9' :: []) :=
    parseYearTok_four hy1b hy2 hy3 hy4 _
  have hyv : ((y1 * 10 + y2) * 10 + y3) * 10 + y4 = 1000 * y1 + 100 * y2 + 10 * y3 + y4 := by
    ring
  have hvalid : dateValid (1000 * y1 + 100 * y2 + 10 * y3 + y4) m d = true := by
    unfold dateValid
    simp only [Bool.and_eq_true, decide_eq_true_eq]
    refine ⟨⟨⟨?_, ?_⟩, ?_⟩, hd⟩ <;> omega
  have hws : parseWsRun (' ' :: '2' :: '3' :: ':' :: '5' :: '9' :: [])
      = some ('2' :: '3' :: ':' :: '5' :: '9' :: []) := by decide
  have hhour : parseHourTok ('2' :: '3' :: ':' :: '5' :: '9' :: [])
      = some (23, ':' :: '5' :: '9' :: []) := by decide
  have hmin : parseMinuteTok ('5' :: '9' :: []) = some (59, []) := by decide
  have hdata : (ds ++ "-" ++ ms ++ "-"
      ++ String.mk [digitChar y1, digitChar y2, digitChar y3, digitChar y4] ++ " 23:59").data
      = ds.data ++ '-' :: (ms.data ++ '-' ::
          (digitChar y1 :: digitChar y2 :: digitChar y3 :: digitChar y4 ::
            ' ' :: '2' :: '3' :: ':' :: '5' :: '9' :: [])) := by
    simp only [data_append, data_mk, hlit1, hlit2, List.append_assoc, List.cons_append,
      List.singleton_append, List.nil_append]
  have hsy : strftimeYear (1000 * y1 + 100 * y2 + 10 * y3 + y4)
      = some (1000 * y1 + 100 * y2 + 10 * y3 + y4) := by
    unfold strftimeYear
    rw [if_pos hy1900]
  unfold convert_expiration_date
  rw [hdata]
  simp only [strptimeDmy, hday, hmon, hyear, hyv, hvalid, hws, hhour, hmin, hsy]
  simp only [decide_True, Bool.true_and, Bool.and_true, Bool.and_self, if_true, hsy]
  have hp23 : (pad2 23).data = ['2', '3'] := by decide
  have hp59 : (pad2 59).data = ['5', '9'] := by decide
  have hsp : (" " : String).data = [' '] := rfl
  have hcol : (":" : String).data = [':'] := rfl
  unfold formatTs
  rw [pad4_digits hy1b hy2 hy3 hy4]
  apply string_eq_of_data
  simp only [data_append, data_mk, hlit1, hlit2, hsp, hcol, hp23, hp59,
    List.append_assoc, List.cons_append, List.nil_append]

/-- C5 (amended): convert_expiration_date maps every input of the form
"D-MMM-YYYY" (1- or 2-digit day, 3-letter month abbreviation, exactly
4-digit year) that denotes a valid calendar date with year at least 1900 to
"YYYY-MM-DD 23:59"; maps the literal inputs "1-jan-0" and "01-jan-0000" to
the sentinel "9999-12-31 23:59"; maps every other unparsable input to the
sentinel "xxxx-xx-xx xx:xx"; and an input that parses to a year the
Python 2 strftime rejects (100..1899) also maps to "xxxx-xx-xx xx:xx". -/
theorem convert_expiration_date_spec :
    (∀ (d m e1 e2 y1 y2 y3 y4 : Nat) (ds ms : String),
      monthNum ms = some m →
      ((ds = String.mk [digitChar e1] ∧ d = e1 ∧ 1 ≤ e1 ∧ e1 ≤ 9) ∨
       (ds = String.mk [digitChar e1, digitChar e2] ∧ d = 10 * e1 + e2 ∧
        e1 ≤ 9 ∧ e2 ≤ 9 ∧ 1 ≤ d)) →
      1 ≤ y1 → y1 ≤ 9 → y2 ≤ 9 → y3 ≤ 9 → y4 ≤ 9 →
      1900 ≤ 1000 * y1 + 100 * y2 + 10 * y3 + y4 →
      d ≤ daysInMonth (1000 * y1 + 100 * y2 + 10 * y3 + y4) m →
      convert_expiration_date (ds ++ "-" ++ ms ++ "-"
          ++ String.mk [digitChar y1, digitChar y2, digitChar y3, digitChar y4])
        = String.mk [digitChar y1, digitChar y2, digitChar y3, digitChar y4]
            ++ "-" ++ pad2 m ++ "-" ++ pad2 d ++ " 23:59") ∧
    convert_expiration_date "1-jan-0" = "9999-12-31 23:59" ∧
    convert_expiration_date "01-jan-0000" = "9999-12-31 23:59" ∧
    (∀ s : String, strptimeDmy (s ++ " 23:59").data = none →
      s ≠ "1-jan-0" → s ≠ "01-jan-0000" →
      convert_expiration_date s = "xxxx-xx-xx xx:xx") ∧
    (∀ (s : String) (y m d h mi : Nat),
      strptimeDmy (s ++ " 23:59").data = some (y, m, d, h, mi) →
      strftimeYear y = none →
      s ≠ "1-jan-0" → s ≠ "01-jan-0000" →
      convert_expiration_date s = "xxxx-xx-xx xx:xx") := by
  refine ⟨?_, by decide, by decide, ?_, ?_⟩
  · intro d m e1 e2 y1 y2 y3 y4 ds ms hms hds hy1 hy1b hy2 hy3 hy4 hy1900 hd
    exact convert_valid_general d m e1 e2 y1 y2 y3 y4 ds ms hms hds hy1 hy1b hy2 hy3 hy4
      hy1900 hd
  · intro s hparse h1 h2
    unfold convert_expiration_date
    rw [hparse]
    simp [h1, h2]
  · intro s y m d h mi hparse hyn h1 h2
    simp only [convert_expiration_date, hparse, hyn]
    simp [h1, h2]

/-- Witness for convert_expiration_date_spec: the round-trip example. -/
theorem convert_expiration_date_spec_witness :
    convert_expiration_date "1-oct-2007" = "2007-10-01 23:59" := by
  have h := convert_expiration_date_spec.1 1 10 1 0 2 0 0 7 "1" "oct"
      (by decide) (Or.inl ⟨by decide, rfl, by decide, by decide⟩)
      (by decide) (by decide) (by decide) (by decide) (by decide) (by decide) (by decide)
  have e1 : ("1" ++ "-" ++ "oct" ++ "-"
      ++ String.mk [digitChar 2, digitChar 0, digitChar 0, digitChar 7]) = "1-oct-2007" := by
    decide
  rw [e1] at h
  exact h.trans (by decide)
